import Mathlib

/-!
# YOLOv8 detection pipeline of `object_detector.js`

A shallow embedding of the decode / non-maximum-suppression / frame-loop code of
`src/yolov8_onnx_nodejs-main/object_detector.js`.

Modelling conventions.

* JavaScript numbers that the code stores (tensor entries, box coordinates,
  confidences, image sizes) are finite and are represented by exact rationals;
  rounding of IEEE arithmetic (and of the stores into `Float32Array`) is not
  represented, and the constants `0.5` and `0.7` are the rationals 1/2 and 7/10.
* The one operation of the code that can leave the finite numbers on finite
  operands is the division at the end of `calculateIOU`.  Its result is a
  `JSNumber`, which keeps `NaN` (from `0 / 0`) and the two infinities apart from
  the finite values, and the comparison `v < iouThreshold` is the IEEE one
  (false for `NaN`).
* A read past the end of an array gives `undefined`; it is `none` here.
* Object identity (`box === processedBoxes[0]`) is represented by the field
  `ref` of a detection: the index of the anchor whose loop iteration allocated
  the array.
-/

namespace ObjectDetector

/-! ## Numbers -/

/-- Result of a JavaScript division: a finite value, an infinity, or `NaN`. -/
inductive JSNumber where
  | fin (q : ℚ)
  | posInf
  | negInf
  | nan
  deriving DecidableEq, Repr

/-- The division `n / d` of two finite numbers, with the IEEE results for a zero divisor. -/
def jsDiv (n d : ℚ) : JSNumber :=
  if d = 0 then
    if n = 0 then JSNumber.nan else if 0 < n then JSNumber.posInf else JSNumber.negInf
  else JSNumber.fin (n / d)

/-- The comparison `v < t` against a finite number `t`; `NaN < t` is false. -/
def jsLt (v : JSNumber) (t : ℚ) : Bool :=
  match v with
  | JSNumber.fin q => decide (q < t)
  | JSNumber.posInf => false
  | JSNumber.negInf => true
  | JSNumber.nan => false

/-- The comparison `v >= t` against a finite number `t`; `NaN >= t` is false. -/
def jsGe (v : JSNumber) (t : ℚ) : Bool :=
  match v with
  | JSNumber.fin q => decide (t ≤ q)
  | JSNumber.posInf => true
  | JSNumber.negInf => false
  | JSNumber.nan => false

/-! ## Data -/

/-- The array `[x1, y1, x2, y2, label, score]` pushed by `processOutput`.  `label` is
`yolo_classes[detectedClass]`, which is `undefined` (`none`) for an index outside the
table.  `ref` is the identity of the array object. -/
structure Detection where
  x1 : ℚ
  y1 : ℚ
  x2 : ℚ
  y2 : ℚ
  label : Option String
  score : ℚ
  ref : Nat
  deriving DecidableEq, Repr

def yolo_classes : List String :=
  ["person", "bicycle", "car", "motorbike", "aeroplane", "bus", "train", "truck", "boat",
   "traffic light", "fire hydrant", "stop sign", "parking meter", "bench", "bird", "cat",
   "dog", "horse", "sheep", "cow", "elephant", "bear", "zebra", "giraffe", "backpack",
   "umbrella", "handbag", "tie", "suitcase", "frisbee", "skis", "snowboard", "sports ball",
   "kite", "baseball bat", "baseball glove", "skateboard", "surfboard", "tennis racket",
   "bottle", "wine glass", "cup", "fork", "knife", "spoon", "bowl", "banana", "apple",
   "sandwich", "orange", "broccoli", "carrot", "hot dog", "pizza", "donut", "cake", "chair",
   "sofa", "pottedplant", "bed", "diningtable", "toilet", "tvmonitor", "laptop", "mouse",
   "remote", "keyboard", "cell phone", "microwave", "oven", "toaster", "sink",
   "refrigerator", "book", "clock", "vase", "scissors", "teddy bear", "hair drier",
   "toothbrush"]

def confidenceThreshold : ℚ := 1 / 2

def numClasses : Nat := 80

def numBoxes : Nat := 8400

def iouThreshold : ℚ := 7 / 10

/-! ## `calculateIOU` -/

def intersectionArea (box1 box2 : Detection) : ℚ :=
  let intersectionX1 := max box1.x1 box2.x1
  let intersectionY1 := max box1.y1 box2.y1
  let intersectionX2 := min box1.x2 box2.x2
  let intersectionY2 := min box1.y2 box2.y2
  max 0 (intersectionX2 - intersectionX1) * max 0 (intersectionY2 - intersectionY1)

def boxArea (box : Detection) : ℚ :=
  (box.x2 - box.x1) * (box.y2 - box.y1)

def unionArea (box1 box2 : Detection) : ℚ :=
  boxArea box1 + boxArea box2 - intersectionArea box1 box2

def calculateIOU (box1 box2 : Detection) : JSNumber :=
  jsDiv (intersectionArea box1 box2) (unionArea box1 box2)

/-! ## `processOutput` -/

/-- The read `output[k]`; `none` is `undefined`. -/
def readTensor (output : List ℚ) (k : Nat) : Option ℚ :=
  output[k]?

/-- One step of the inner loop over `j`: `(maxConfidence, detectedClass)` is replaced when
`confidence > maxConfidence`; the comparison is false when `confidence` is `undefined`. -/
def classStep (output : List ℚ) (i : Nat) (st : ℚ × Int) (j : Nat) : ℚ × Int :=
  match readTensor output (numBoxes * (j + 4) + i) with
  | some confidence => if confidence > st.1 then (confidence, (j : Int)) else st
  | none => st

/-- The inner loop `for (let j = 0; j < numClasses; j++)` for anchor `i`, from
`maxConfidence = 0`, `detectedClass = -1`. -/
def classScan (output : List ℚ) (i : Nat) : ℚ × Int :=
  (List.range numClasses).foldl (classStep output i) (0, -1)

/-- The element `yolo_classes[detectedClass]`. -/
def classLabel (detectedClass : Int) : Option String :=
  if detectedClass < 0 then none else yolo_classes[detectedClass.toNat]?

/-- The body of the outer loop for anchor `i`: `none` when the anchor is skipped by
`continue`, otherwise the array that is pushed.  The four box reads are in range whenever
a class score of the anchor was read, so their fallback value is never used for a pushed
array. -/
def decodeAnchor (output : List ℚ) (imgWidth imgHeight : ℚ) (i : Nat) : Option Detection :=
  let maxConfidence := (classScan output i).1
  let detectedClass := (classScan output i).2
  if maxConfidence < confidenceThreshold then none
  else
    let x := (readTensor output i).getD 0
    let y := (readTensor output (numBoxes + i)).getD 0
    let w := (readTensor output (2 * numBoxes + i)).getD 0
    let h := (readTensor output (3 * numBoxes + i)).getD 0
    let x1 := max 0 (((x - w / 2) / 640) * imgWidth)
    let y1 := max 0 (((y - h / 2) / 640) * imgHeight)
    let x2 := min imgWidth (((x + w / 2) / 640) * imgWidth)
    let y2 := min imgHeight (((y + h / 2) / 640) * imgHeight)
    some { x1 := x1, y1 := y1, x2 := x2, y2 := y2,
           label := classLabel detectedClass, score := maxConfidence, ref := i }

/-- The list `processedBoxes` after the outer loop over the anchors. -/
def decodeBoxes (output : List ℚ) (imgWidth imgHeight : ℚ) : List Detection :=
  (List.range numBoxes).filterMap (decodeAnchor output imgWidth imgHeight)

/-- The order given by the comparator `(a, b) => b[5] - a[5]`: `a` may stay before `b`
when the comparator's value is not positive. -/
def confidenceOrder (a b : Detection) : Prop :=
  b.score - a.score ≤ 0

instance : DecidableRel confidenceOrder :=
  fun a b => inferInstanceAs (Decidable (b.score - a.score ≤ 0))

instance : IsTotal Detection confidenceOrder :=
  ⟨fun a b => by
    unfold confidenceOrder
    rcases le_total a.score b.score with h | h
    · right; linarith
    · left; linarith⟩

instance : IsTrans Detection confidenceOrder :=
  ⟨fun a b c hab hbc => by
    unfold confidenceOrder at *
    linarith⟩

/-- The call `processedBoxes.sort((a, b) => b[5] - a[5])`: a stable sort. -/
def sortBoxes (boxes : List Detection) : List Detection :=
  boxes.insertionSort confidenceOrder

/-- The filter predicate of the suppression loop:
`calculateIOU(processedBoxes[0], box) < iouThreshold || box === processedBoxes[0]`. -/
def keepBox (first box : Detection) : Bool :=
  jsLt (calculateIOU first box) iouThreshold || decide (box.ref = first.ref)

/-- The loop `while (processedBoxes.length > 0)`, run for at most `fuel` rounds; it returns
the boxes pushed to `selectedBoxes`. -/
def suppressLoop : Nat → List Detection → List Detection
  | 0, _ => []
  | _ + 1, [] => []
  | fuel + 1, first :: rest =>
    let remaining := (first :: rest).filter (keepBox first)
    first :: suppressLoop fuel (remaining.drop 1)

/-- The suppression loop; every round shortens `processedBoxes`, so its length is enough
fuel (`suppressLoop_fuel`). -/
def suppress (processedBoxes : List Detection) : List Detection :=
  suppressLoop processedBoxes.length processedBoxes

def processOutput (output : List ℚ) (imgWidth imgHeight : ℚ) : List Detection :=
  suppress (sortBoxes (decodeBoxes output imgWidth imgHeight))

/-! ## `prepareInput` -/

/-- The errors thrown inside the per-frame pipeline. -/
inductive PipelineError where
  | invalidMetadata
  | invalidDimensions (bytes : Nat)
  | invalidModelOutput
  | external (message : String)
  deriving DecidableEq, Repr

/-- The three `Float32Array(640 * 640)` planes `channels.r`, `channels.g`, `channels.b`. -/
structure Channels where
  r : List ℚ
  g : List ℚ
  b : List ℚ
  deriving DecidableEq, Repr

/-- The byte `resizedImage.data[i]` as a number.  The loop runs only after the length test,
so every index it reads is in range and the fallback value is never used. -/
def byteAt (data : List Nat) (i : Nat) : ℚ :=
  ((data[i]?.getD 0 : Nat) : ℚ)

/-- The body of the loop over `i = 3 * pixel`. -/
def channelStep (data : List Nat) (channels : Channels) (pixel : Nat) : Channels :=
  let i := 3 * pixel
  { r := channels.r.set pixel (byteAt data i / 255)
    g := channels.g.set pixel (byteAt data (i + 1) / 255)
    b := channels.b.set pixel (byteAt data (i + 2) / 255) }

/-- The loop `for (let i = 0; i < resizedImage.data.length; i += 3)` over zero-filled
planes. -/
def fillChannels (data : List Nat) : Channels :=
  (List.range ((data.length + 2) / 3)).foldl (channelStep data)
    { r := List.replicate (640 * 640) 0
      g := List.replicate (640 * 640) 0
      b := List.replicate (640 * 640) 0 }

/-- The part of `prepareInput` after the resize: the length test and the tensor
`[...channels.r, ...channels.g, ...channels.b]`. -/
def buildInput (data : List Nat) : Except PipelineError (List ℚ) :=
  if data.length ≠ 640 * 640 * 3 then
    Except.error (PipelineError.invalidDimensions data.length)
  else
    let channels := fillChannels data
    Except.ok (channels.r ++ channels.g ++ channels.b)

/-- The calls into `sharp` and `onnxruntime-node`, each of which may throw.  `metadata`
gives `(width, height)`, with 0 for a missing field; `resizeRaw` is
`removeAlpha().resize(640, 640, fill).raw().toBuffer()`; `inference` gives
`results.output0.data`, or `none` when that field is missing. -/
structure Externals (Buffer : Type) where
  metadata : Buffer → Except PipelineError (Option (Nat × Nat))
  jpeg : Buffer → Except PipelineError Buffer
  resizeRaw : Buffer → Except PipelineError (List Nat)
  inference : List ℚ → Except PipelineError (Option (List ℚ))

def checkMetadata (metadata : Option (Nat × Nat)) : Except PipelineError (Nat × Nat) :=
  match metadata with
  | none => Except.error PipelineError.invalidMetadata
  | some (width, height) =>
    if width = 0 ∨ height = 0 then Except.error PipelineError.invalidMetadata
    else Except.ok (width, height)

def prepareInput {Buffer : Type} (ext : Externals Buffer) (imageBuffer : Buffer) :
    Except PipelineError (List ℚ × Nat × Nat) := do
  let metadata ← ext.metadata imageBuffer
  let (imgWidth, imgHeight) ← checkMetadata metadata
  let data ← ext.resizeRaw imageBuffer
  let input ← buildInput data
  pure (input, imgWidth, imgHeight)

def runModel {Buffer : Type} (ext : Externals Buffer) (input : List ℚ) :
    Except PipelineError (List ℚ) := do
  let results ← ext.inference input
  match results with
  | none => Except.error PipelineError.invalidModelOutput
  | some output => pure output

/-! ## The frame loop -/

/-- The `try` block of `detectObjectsOnImage`. -/
def framePipeline {Buffer : Type} (ext : Externals Buffer) (imageBuffer : Buffer) :
    Except PipelineError (List Detection) := do
  let metadata ← ext.metadata imageBuffer
  let _ ← checkMetadata metadata
  let processedBuffer ← ext.jpeg imageBuffer
  let (input, imgWidth, imgHeight) ← prepareInput ext processedBuffer
  let output ← runModel ext input
  pure (processOutput output imgWidth imgHeight)

/-- The function `detectObjectsOnImage`: the `catch` block returns `[]`. -/
def detectObjectsOnImage {Buffer : Type} (ext : Externals Buffer) (imageBuffer : Buffer) :
    List Detection :=
  match framePipeline ext imageBuffer with
  | Except.ok detections => detections
  | Except.error _ => []

/-- The loop `for (const file of frameFiles)` of `detectObjectsInVideo`, which pushes one
entry per file to `frames`; `readFileSync` gives the bytes of a readable frame file. -/
def frameLoop {File Buffer : Type} (ext : Externals Buffer) (readFileSync : File → Buffer)
    (frameFiles : List File) : List (List Detection) :=
  frameFiles.foldl
    (fun frames file => frames ++ [detectObjectsOnImage ext (readFileSync file)]) []

/-! ## Sample inputs -/

/-- One anchor column of a sample tensor: its box and one class score. -/
structure AnchorColumn where
  cx : ℚ
  cy : ℚ
  w : ℚ
  h : ℚ
  cls : Nat
  conf : ℚ
  deriving DecidableEq, Repr

/-- Entry `k` of the sample tensor: row `k / 8400`, column `k % 8400`. -/
def anchorEntry (cols : List AnchorColumn) (k : Nat) : ℚ :=
  match cols[k % numBoxes]? with
  | none => 0
  | some a =>
    if k / numBoxes = 0 then a.cx
    else if k / numBoxes = 1 then a.cy
    else if k / numBoxes = 2 then a.w
    else if k / numBoxes = 3 then a.h
    else if k / numBoxes = a.cls + 4 then a.conf
    else 0

/-- A full `[84, 8400]` tensor whose first columns are `cols` and whose other entries
are 0. -/
def anchorTensor (cols : List AnchorColumn) : List ℚ :=
  (List.range (84 * numBoxes)).map (anchorEntry cols)

/-- One anchor with the box of a 100 x 200 object at the centre and the score 0.5. -/
def halfCols : List AnchorColumn :=
  [{ cx := 320, cy := 320, w := 100, h := 200, cls := 0, conf := 1 / 2 }]

/-- One anchor whose box lies to the right of the 640 x 640 model square. -/
def outsideCols : List AnchorColumn :=
  [{ cx := 1000, cy := 320, w := 10, h := 10, cls := 0, conf := 3 / 4 }]

/-- Two anchors with disjoint 40 x 40 boxes. -/
def apartCols : List AnchorColumn :=
  [{ cx := 100, cy := 100, w := 40, h := 40, cls := 0, conf := 3 / 4 },
   { cx := 400, cy := 400, w := 40, h := 40, cls := 2, conf := 5 / 8 }]

/-- Two anchors whose boxes have width 0 and height 0, 200 pixels apart. -/
def pointCols : List AnchorColumn :=
  [{ cx := 100, cy := 100, w := 0, h := 0, cls := 0, conf := 3 / 4 },
   { cx := 300, cy := 300, w := 0, h := 0, cls := 0, conf := 5 / 8 }]

/-- Two anchors whose boxes are a vertical and a horizontal segment, far apart. -/
def segmentCols : List AnchorColumn :=
  [{ cx := 100, cy := 100, w := 0, h := 40, cls := 0, conf := 3 / 4 },
   { cx := 400, cy := 400, w := 40, h := 0, cls := 1, conf := 5 / 8 }]

/-- Externals of a sample run.  A frame is a solid-gray 640 x 640 image, given by its
gray level; the engine fails on a black frame and otherwise returns the tensor
`anchorTensor apartCols`. -/
def grayExternals : Externals Nat :=
  { metadata := fun _ => Except.ok (some (640, 640))
    jpeg := fun frame => Except.ok frame
    resizeRaw := fun frame => Except.ok (List.replicate (640 * 640 * 3) frame)
    inference := fun input =>
      if input[0]? = some 0 then Except.error (PipelineError.external "inference failed")
      else Except.ok (some (anchorTensor apartCols)) }

/-! ## Theorems -/

theorem calculateIOU_comm (a b : Detection) : calculateIOU a b = calculateIOU b a := by
  have hi : intersectionArea a b = intersectionArea b a := by
    simp only [intersectionArea, max_comm a.x1, max_comm a.y1, min_comm a.x2, min_comm a.y2]
  simp only [calculateIOU, unionArea, hi, add_comm (boxArea a)]

theorem keepBox_self (first : Detection) : keepBox first first = true := by
  simp [keepBox]

theorem suppressLoop_cons (fuel : Nat) (first : Detection) (rest : List Detection) :
    suppressLoop (fuel + 1) (first :: rest)
      = first :: suppressLoop fuel (rest.filter (keepBox first)) := by
  simp [suppressLoop, List.filter_cons, keepBox_self]

/-- The loop ends: any fuel of at least the length of the list gives the same result. -/
theorem suppressLoop_fuel (fuel : Nat) :
    ∀ l : List Detection, l.length ≤ fuel → suppressLoop fuel l = suppressLoop l.length l := by
  induction fuel using Nat.strong_induction_on with
  | _ fuel ih =>
    intro l hl
    cases l with
    | nil => cases fuel <;> rfl
    | cons first rest =>
      obtain ⟨n, rfl⟩ : ∃ n, fuel = n + 1 := ⟨fuel - 1, by simp at hl; omega⟩
      have hlen : (rest.filter (keepBox first)).length ≤ rest.length := List.length_filter_le _ _
      simp only [List.length_cons] at hl
      rw [List.length_cons, suppressLoop_cons, suppressLoop_cons,
        ih n (by omega) _ (by omega), ih rest.length (by omega) _ hlen]

theorem suppress_nil : suppress [] = [] := rfl

theorem suppress_cons (first : Detection) (rest : List Detection) :
    suppress (first :: rest) = first :: suppress (rest.filter (keepBox first)) := by
  unfold suppress
  rw [List.length_cons, suppressLoop_cons,
    suppressLoop_fuel rest.length _ (List.length_filter_le _ _)]

/-- Induction along the rounds of the suppression loop. -/
theorem suppress_induction {P : List Detection → Prop} (hnil : P [])
    (hcons : ∀ first rest, P (rest.filter (keepBox first)) → P (first :: rest)) :
    ∀ l, P l := by
  intro l
  generalize hn : l.length = n
  induction n using Nat.strong_induction_on generalizing l with
  | _ n ih =>
    cases l with
    | nil => exact hnil
    | cons first rest =>
      apply hcons
      have hlen : (rest.filter (keepBox first)).length ≤ rest.length := List.length_filter_le _ _
      simp only [List.length_cons] at hn
      exact ih _ (by omega) _ rfl

theorem suppress_sublist (l : List Detection) : (suppress l).Sublist l := by
  induction l using suppress_induction with
  | hnil => simp [suppress_nil]
  | hcons first rest ih =>
    rw [suppress_cons]
    exact (ih.trans (List.filter_sublist _)).cons₂ first

theorem suppress_pairwise (l : List Detection) (hl : (l.map Detection.ref).Nodup) :
    (suppress l).Pairwise (fun a b => jsLt (calculateIOU a b) iouThreshold = true) := by
  induction l using suppress_induction with
  | hnil => simp [suppress_nil]
  | hcons first rest ih =>
    rw [suppress_cons, List.pairwise_cons]
    rw [List.map_cons, List.nodup_cons] at hl
    refine ⟨?_, ih ((List.filter_sublist _).map _ |>.nodup hl.2)⟩
    intro b hb
    have hb2 : b ∈ rest.filter (keepBox first) := (suppress_sublist _).subset hb
    rw [List.mem_filter] at hb2
    have hne : b.ref ≠ first.ref := by
      intro h
      exact hl.1 (h ▸ List.mem_map_of_mem _ hb2.1)
    simpa [keepBox, hne] using hb2.2

/-! ### The sort -/

theorem sortBoxes_perm (boxes : List Detection) : (sortBoxes boxes).Perm boxes :=
  List.perm_insertionSort _ boxes

theorem sortBoxes_sorted (boxes : List Detection) :
    (sortBoxes boxes).Pairwise (fun a b => b.score ≤ a.score) := by
  have h : (sortBoxes boxes).Pairwise confidenceOrder := List.sorted_insertionSort _ boxes
  refine h.imp ?_
  intro a b hab
  unfold confidenceOrder at hab
  linarith

/-- Stability: the boxes of one confidence keep their relative order. -/
theorem sortBoxes_stable (boxes : List Detection) (s : ℚ) :
    (sortBoxes boxes).filter (fun d => decide (d.score = s))
      = boxes.filter (fun d => decide (d.score = s)) := by
  have hpw : (boxes.filter (fun d => decide (d.score = s))).Pairwise confidenceOrder := by
    rw [List.pairwise_iff_forall_sublist]
    intro a b hab
    have ha : a ∈ boxes.filter (fun d => decide (d.score = s)) := hab.subset (by simp)
    have hb : b ∈ boxes.filter (fun d => decide (d.score = s)) := hab.subset (by simp)
    simp only [List.mem_filter, decide_eq_true_eq] at ha hb
    unfold confidenceOrder
    rw [ha.2, hb.2]
    simp
  have hsub : (boxes.filter (fun d => decide (d.score = s))).Sublist (sortBoxes boxes) :=
    List.sublist_insertionSort hpw (List.filter_sublist _)
  have hsub2 := hsub.filter (fun d => decide (d.score = s))
  rw [List.filter_filter] at hsub2
  simp only [Bool.and_self] at hsub2
  have hlen := ((sortBoxes_perm boxes).filter (fun d => decide (d.score = s))).length_eq
  exact (hsub2.eq_of_length hlen.symm).symm

/-! ### The decoder -/

theorem decodeAnchor_ref {output : List ℚ} {imgWidth imgHeight : ℚ} {i : Nat} {d : Detection}
    (h : decodeAnchor output imgWidth imgHeight i = some d) : d.ref = i := by
  dsimp only [decodeAnchor] at h
  split_ifs at h
  simp only [Option.some.injEq] at h
  rw [← h]

theorem mem_decodeBoxes {output : List ℚ} {imgWidth imgHeight : ℚ} {d : Detection} :
    d ∈ decodeBoxes output imgWidth imgHeight
      ↔ d.ref < numBoxes ∧ decodeAnchor output imgWidth imgHeight d.ref = some d := by
  unfold decodeBoxes
  rw [List.mem_filterMap]
  constructor
  · rintro ⟨i, hi, h⟩
    have := decodeAnchor_ref h
    subst this
    exact ⟨List.mem_range.1 hi, h⟩
  · rintro ⟨hi, h⟩
    exact ⟨d.ref, List.mem_range.2 hi, h⟩

/-- The arrays pushed by the decoder are pairwise distinct objects, in anchor order. -/
theorem decodeBoxes_ref_lt (output : List ℚ) (imgWidth imgHeight : ℚ) :
    (decodeBoxes output imgWidth imgHeight).Pairwise (fun a b => a.ref < b.ref) := by
  unfold decodeBoxes
  refine List.Pairwise.filterMap _ ?_ (List.pairwise_lt_range numBoxes)
  intro i j hij a ha b hb
  rw [decodeAnchor_ref (Option.mem_def.1 ha), decodeAnchor_ref (Option.mem_def.1 hb)]
  exact hij

theorem decodeBoxes_ref_nodup (output : List ℚ) (imgWidth imgHeight : ℚ) :
    ((decodeBoxes output imgWidth imgHeight).map Detection.ref).Nodup := by
  have h := decodeBoxes_ref_lt output imgWidth imgHeight
  unfold List.Nodup
  rw [List.pairwise_map]
  exact h.imp (fun hab => Nat.ne_of_lt hab)

theorem processOutput_sublist (output : List ℚ) (imgWidth imgHeight : ℚ) :
    (processOutput output imgWidth imgHeight).Sublist
      (sortBoxes (decodeBoxes output imgWidth imgHeight)) :=
  suppress_sublist _

theorem mem_decodeBoxes_of_mem_processOutput {output : List ℚ} {imgWidth imgHeight : ℚ}
    {d : Detection} (h : d ∈ processOutput output imgWidth imgHeight) :
    d ∈ decodeBoxes output imgWidth imgHeight :=
  (sortBoxes_perm _).subset ((processOutput_sublist output imgWidth imgHeight).subset h)

/-- The state of the inner loop after the classes `0 .. n-1`: the running maximum bounds
every score read so far, and it is either still the initial `(0, -1)` or the first class
that attains it. -/
theorem classScan_invariant (output : List ℚ) (i n : Nat) :
    let st := (List.range n).foldl (classStep output i) (0, -1)
    (∀ j, j < n → ∀ v, readTensor output (numBoxes * (j + 4) + i) = some v → v ≤ st.1) ∧
    (st = (0, -1) ∨
      ∃ k : Nat, k < n ∧ st.2 = (k : Int) ∧
        readTensor output (numBoxes * (k + 4) + i) = some st.1 ∧ 0 < st.1 ∧
        ∀ j, j < k → ∀ v, readTensor output (numBoxes * (j + 4) + i) = some v → v < st.1) := by
  induction n with
  | zero => simp
  | succ n ih =>
    simp only [List.range_succ, List.foldl_append, List.foldl_cons, List.foldl_nil]
    generalize (List.range n).foldl (classStep output i) (0, -1) = st at ih
    obtain ⟨hmax, hcase⟩ := ih
    have hnonneg : 0 ≤ st.1 := by
      rcases hcase with h | ⟨k, -, -, -, hpos, -⟩
      · rw [h]
      · exact hpos.le
    unfold classStep
    cases hread : readTensor output (numBoxes * (n + 4) + i) with
    | none =>
      dsimp only
      refine ⟨?_, ?_⟩
      · intro j hj v hv
        rcases Nat.lt_succ_iff_lt_or_eq.1 hj with h | h
        · exact hmax j h v hv
        · subst h; rw [hread] at hv; cases hv
      · rcases hcase with h | ⟨k, hk, h2, h3, h4, h5⟩
        · exact Or.inl h
        · exact Or.inr ⟨k, Nat.lt_succ_of_lt hk, h2, h3, h4, h5⟩
    | some c =>
      dsimp only
      by_cases hc : c > st.1
      · rw [if_pos hc]
        refine ⟨?_, Or.inr ⟨n, Nat.lt_succ_self n, rfl, hread, lt_of_le_of_lt hnonneg hc, ?_⟩⟩
        · intro j hj v hv
          rcases Nat.lt_succ_iff_lt_or_eq.1 hj with h | h
          · exact (hmax j h v hv).trans hc.le
          · subst h; rw [hread] at hv; cases hv; exact le_refl _
        · intro j hj v hv
          exact lt_of_le_of_lt (hmax j hj v hv) hc
      · rw [if_neg hc]
        refine ⟨?_, ?_⟩
        · intro j hj v hv
          rcases Nat.lt_succ_iff_lt_or_eq.1 hj with h | h
          · exact hmax j h v hv
          · subst h; rw [hread] at hv; cases hv; exact not_lt.1 hc
        · rcases hcase with h | ⟨k, hk, h2, h3, h4, h5⟩
          · exact Or.inl h
          · exact Or.inr ⟨k, Nat.lt_succ_of_lt hk, h2, h3, h4, h5⟩

theorem classScan_spec (output : List ℚ) (i : Nat) :
    (∀ j, j < numClasses → ∀ v,
        readTensor output (numBoxes * (j + 4) + i) = some v → v ≤ (classScan output i).1) ∧
    (classScan output i = (0, -1) ∨
      ∃ k : Nat, k < numClasses ∧ (classScan output i).2 = (k : Int) ∧
        readTensor output (numBoxes * (k + 4) + i) = some (classScan output i).1 ∧
        0 < (classScan output i).1 ∧
        ∀ j, j < k → ∀ v,
          readTensor output (numBoxes * (j + 4) + i) = some v → v < (classScan output i).1) :=
  classScan_invariant output i numClasses

/-! ### Sample tensors -/

theorem readTensor_anchorTensor (cols : List AnchorColumn) (k : Nat) (hk : k < 84 * numBoxes) :
    readTensor (anchorTensor cols) k = some (anchorEntry cols k) := by
  simp [readTensor, anchorTensor, List.getElem?_range hk]

theorem read_score_anchorTensor (cols : List AnchorColumn) (i j : Nat) (hi : i < numBoxes)
    (hj : j < numClasses) :
    readTensor (anchorTensor cols) (numBoxes * (j + 4) + i)
      = some (match cols[i]? with
              | none => 0
              | some a => if j = a.cls then a.conf else 0) := by
  unfold numBoxes numClasses at *
  have hdiv : (8400 * (j + 4) + i) / 8400 = j + 4 := by omega
  have hmod : (8400 * (j + 4) + i) % 8400 = i := by omega
  rw [readTensor_anchorTensor _ _ (by unfold numBoxes; omega)]
  simp only [anchorEntry, numBoxes, hdiv, hmod]
  cases cols[i]? with
  | none => rfl
  | some a => simp

theorem read_box_anchorTensor (cols : List AnchorColumn) (i : Nat) (hi : i < numBoxes) :
    readTensor (anchorTensor cols) i = some ((cols[i]?.map AnchorColumn.cx).getD 0) ∧
    readTensor (anchorTensor cols) (numBoxes + i) = some ((cols[i]?.map AnchorColumn.cy).getD 0) ∧
    readTensor (anchorTensor cols) (2 * numBoxes + i)
      = some ((cols[i]?.map AnchorColumn.w).getD 0) ∧
    readTensor (anchorTensor cols) (3 * numBoxes + i)
      = some ((cols[i]?.map AnchorColumn.h).getD 0) := by
  unfold numBoxes at *
  have h0 : i / 8400 = 0 ∧ i % 8400 = i := by omega
  have h1 : (8400 + i) / 8400 = 1 ∧ (8400 + i) % 8400 = i := by omega
  have h2 : (2 * 8400 + i) / 8400 = 2 ∧ (2 * 8400 + i) % 8400 = i := by omega
  have h3 : (3 * 8400 + i) / 8400 = 3 ∧ (3 * 8400 + i) % 8400 = i := by omega
  refine ⟨?_, ?_, ?_, ?_⟩
  · rw [readTensor_anchorTensor _ _ (by unfold numBoxes; omega)]
    simp only [anchorEntry, numBoxes, h0.1, h0.2]
    cases cols[i]? <;> simp
  · rw [readTensor_anchorTensor _ _ (by unfold numBoxes; omega)]
    simp only [anchorEntry, numBoxes, h1.1, h1.2]
    cases cols[i]? <;> simp
  · rw [readTensor_anchorTensor _ _ (by unfold numBoxes; omega)]
    simp only [anchorEntry, numBoxes, h2.1, h2.2]
    cases cols[i]? <;> simp
  · rw [readTensor_anchorTensor _ _ (by unfold numBoxes; omega)]
    simp only [anchorEntry, numBoxes, h3.1, h3.2]
    cases cols[i]? <;> simp

theorem classScan_anchorTensor_none (cols : List AnchorColumn) (i : Nat) (hi : i < numBoxes)
    (h : cols[i]? = none) : classScan (anchorTensor cols) i = (0, -1) := by
  rcases (classScan_spec (anchorTensor cols) i).2 with h0 | ⟨k, hk, -, hread, hpos, -⟩
  · exact h0
  · rw [read_score_anchorTensor cols i k hi hk, h] at hread
    simp only [Option.some.injEq] at hread
    rw [← hread] at hpos
    exact absurd hpos (lt_irrefl _)

theorem classScan_anchorTensor_some (cols : List AnchorColumn) (i : Nat) (hi : i < numBoxes)
    (a : AnchorColumn) (h : cols[i]? = some a) (hc : a.cls < numClasses) (hs : 0 < a.conf) :
    classScan (anchorTensor cols) i = (a.conf, (a.cls : Int)) := by
  obtain ⟨hmax, hcase⟩ := classScan_spec (anchorTensor cols) i
  have hle : a.conf ≤ (classScan (anchorTensor cols) i).1 := by
    apply hmax a.cls hc
    rw [read_score_anchorTensor cols i a.cls hi hc, h]
    simp
  rcases hcase with h0 | ⟨k, hk, hcls, hread, hpos, -⟩
  · rw [h0] at hle
    exact absurd (lt_of_lt_of_le hs hle) (lt_irrefl _)
  · rw [read_score_anchorTensor cols i k hi hk, h] at hread
    simp only [Option.some.injEq] at hread
    by_cases hka : k = a.cls
    · rw [if_pos hka] at hread
      apply Prod.ext
      · exact hread.symm
      · rw [hcls, hka]
    · rw [if_neg hka] at hread
      rw [← hread] at hpos
      exact absurd hpos (lt_irrefl _)

theorem decodeAnchor_anchorTensor_none (cols : List AnchorColumn) (imgWidth imgHeight : ℚ)
    (i : Nat) (hi : i < numBoxes) (h : cols[i]? = none) :
    decodeAnchor (anchorTensor cols) imgWidth imgHeight i = none := by
  dsimp only [decodeAnchor]
  rw [classScan_anchorTensor_none cols i hi h]
  simp [confidenceThreshold]

theorem decodeAnchor_anchorTensor_some (cols : List AnchorColumn) (imgWidth imgHeight : ℚ)
    (i : Nat) (hi : i < numBoxes) (a : AnchorColumn) (h : cols[i]? = some a)
    (hc : a.cls < numClasses) (hs : confidenceThreshold ≤ a.conf) :
    decodeAnchor (anchorTensor cols) imgWidth imgHeight i
      = some { x1 := max 0 (((a.cx - a.w / 2) / 640) * imgWidth)
               y1 := max 0 (((a.cy - a.h / 2) / 640) * imgHeight)
               x2 := min imgWidth (((a.cx + a.w / 2) / 640) * imgWidth)
               y2 := min imgHeight (((a.cy + a.h / 2) / 640) * imgHeight)
               label := yolo_classes[a.cls]?
               score := a.conf
               ref := i } := by
  have hpos : 0 < a.conf := lt_of_lt_of_le (by norm_num [confidenceThreshold]) hs
  obtain ⟨hx, hy, hw, hh⟩ := read_box_anchorTensor cols i hi
  dsimp only [decodeAnchor]
  rw [classScan_anchorTensor_some cols i hi a h hc hpos, if_neg (not_lt.2 hs), hx, hy, hw, hh, h]
  simp [classLabel]

theorem decodeBoxes_anchorTensor (cols : List AnchorColumn) (imgWidth imgHeight : ℚ)
    (hlen : cols.length ≤ numBoxes) :
    decodeBoxes (anchorTensor cols) imgWidth imgHeight
      = (List.range cols.length).filterMap
          (decodeAnchor (anchorTensor cols) imgWidth imgHeight) := by
  unfold decodeBoxes
  obtain ⟨m, hm⟩ : ∃ m, numBoxes = cols.length + m := ⟨numBoxes - cols.length, by omega⟩
  rw [hm, List.range_add, List.filterMap_append]
  have hnil : List.filterMap (decodeAnchor (anchorTensor cols) imgWidth imgHeight)
      ((List.range m).map (fun x => cols.length + x)) = [] := by
    rw [List.filterMap_eq_nil_iff]
    intro i hi
    rw [List.mem_map] at hi
    obtain ⟨x, hx, rfl⟩ := hi
    rw [List.mem_range] at hx
    apply decodeAnchor_anchorTensor_none
    · omega
    · rw [List.getElem?_eq_none_iff]
      omega
  rw [hnil, List.append_nil]

theorem filterMap_range_one {α : Type} (f : Nat → Option α) :
    (List.range 1).filterMap f = (f 0).toList := by
  simp only [List.range_succ, List.range_zero, List.nil_append, List.filterMap_cons,
    List.filterMap_nil]
  cases f 0 <;> rfl

theorem filterMap_range_two {α : Type} (f : Nat → Option α) :
    (List.range 2).filterMap f = (f 0).toList ++ (f 1).toList := by
  have h : List.range 2 = [0, 1] := rfl
  rw [h]
  simp only [List.filterMap_cons, List.filterMap_nil]
  cases f 0 <;> cases f 1 <;> rfl

theorem decodeBoxes_halfCols :
    decodeBoxes (anchorTensor halfCols) 640 640
      = [{ x1 := 270, y1 := 220, x2 := 370, y2 := 420, label := some "person",
           score := 1 / 2, ref := 0 }] := by
  have hlen : halfCols.length = 1 := rfl
  rw [decodeBoxes_anchorTensor _ _ _ (by rw [hlen]; norm_num [numBoxes]), hlen,
    filterMap_range_one,
    decodeAnchor_anchorTensor_some halfCols 640 640 0 (by norm_num [numBoxes])
      { cx := 320, cy := 320, w := 100, h := 200, cls := 0, conf := 1 / 2 } rfl
      (by norm_num [numClasses]) (by norm_num [confidenceThreshold])]
  norm_num [yolo_classes]

theorem decodeBoxes_outsideCols :
    decodeBoxes (anchorTensor outsideCols) 640 640
      = [{ x1 := 995, y1 := 315, x2 := 640, y2 := 325, label := some "person",
           score := 3 / 4, ref := 0 }] := by
  have hlen : outsideCols.length = 1 := rfl
  rw [decodeBoxes_anchorTensor _ _ _ (by rw [hlen]; norm_num [numBoxes]), hlen,
    filterMap_range_one,
    decodeAnchor_anchorTensor_some outsideCols 640 640 0 (by norm_num [numBoxes])
      { cx := 1000, cy := 320, w := 10, h := 10, cls := 0, conf := 3 / 4 } rfl
      (by norm_num [numClasses]) (by norm_num [confidenceThreshold])]
  norm_num [yolo_classes]

theorem decodeBoxes_apartCols :
    decodeBoxes (anchorTensor apartCols) 640 640
      = [{ x1 := 80, y1 := 80, x2 := 120, y2 := 120, label := some "person",
           score := 3 / 4, ref := 0 },
         { x1 := 380, y1 := 380, x2 := 420, y2 := 420, label := some "car",
           score := 5 / 8, ref := 1 }] := by
  have hlen : apartCols.length = 2 := rfl
  rw [decodeBoxes_anchorTensor _ _ _ (by rw [hlen]; norm_num [numBoxes]), hlen,
    filterMap_range_two,
    decodeAnchor_anchorTensor_some apartCols 640 640 0 (by norm_num [numBoxes])
      { cx := 100, cy := 100, w := 40, h := 40, cls := 0, conf := 3 / 4 } rfl
      (by norm_num [numClasses]) (by norm_num [confidenceThreshold]),
    decodeAnchor_anchorTensor_some apartCols 640 640 1 (by norm_num [numBoxes])
      { cx := 400, cy := 400, w := 40, h := 40, cls := 2, conf := 5 / 8 } rfl
      (by norm_num [numClasses]) (by norm_num [confidenceThreshold])]
  norm_num [yolo_classes]

theorem decodeBoxes_pointCols :
    decodeBoxes (anchorTensor pointCols) 640 640
      = [{ x1 := 100, y1 := 100, x2 := 100, y2 := 100, label := some "person",
           score := 3 / 4, ref := 0 },
         { x1 := 300, y1 := 300, x2 := 300, y2 := 300, label := some "person",
           score := 5 / 8, ref := 1 }] := by
  have hlen : pointCols.length = 2 := rfl
  rw [decodeBoxes_anchorTensor _ _ _ (by rw [hlen]; norm_num [numBoxes]), hlen,
    filterMap_range_two,
    decodeAnchor_anchorTensor_some pointCols 640 640 0 (by norm_num [numBoxes])
      { cx := 100, cy := 100, w := 0, h := 0, cls := 0, conf := 3 / 4 } rfl
      (by norm_num [numClasses]) (by norm_num [confidenceThreshold]),
    decodeAnchor_anchorTensor_some pointCols 640 640 1 (by norm_num [numBoxes])
      { cx := 300, cy := 300, w := 0, h := 0, cls := 0, conf := 5 / 8 } rfl
      (by norm_num [numClasses]) (by norm_num [confidenceThreshold])]
  norm_num [yolo_classes]

theorem processOutput_halfCols :
    processOutput (anchorTensor halfCols) 640 640
      = [{ x1 := 270, y1 := 220, x2 := 370, y2 := 420, label := some "person",
           score := 1 / 2, ref := 0 }] := by
  rw [processOutput, decodeBoxes_halfCols]
  norm_num [sortBoxes, List.insertionSort, List.orderedInsert, suppress_cons, suppress_nil]

theorem processOutput_outsideCols :
    processOutput (anchorTensor outsideCols) 640 640
      = [{ x1 := 995, y1 := 315, x2 := 640, y2 := 325, label := some "person",
           score := 3 / 4, ref := 0 }] := by
  rw [processOutput, decodeBoxes_outsideCols]
  norm_num [sortBoxes, List.insertionSort, List.orderedInsert, suppress_cons, suppress_nil]

theorem processOutput_apartCols :
    processOutput (anchorTensor apartCols) 640 640
      = [{ x1 := 80, y1 := 80, x2 := 120, y2 := 120, label := some "person",
           score := 3 / 4, ref := 0 },
         { x1 := 380, y1 := 380, x2 := 420, y2 := 420, label := some "car",
           score := 5 / 8, ref := 1 }] := by
  rw [processOutput, decodeBoxes_apartCols]
  norm_num [sortBoxes, List.insertionSort, List.orderedInsert, confidenceOrder, suppress_cons,
    suppress_nil, keepBox, jsLt, iouThreshold, calculateIOU, jsDiv, intersectionArea,
    unionArea, boxArea]

theorem processOutput_pointCols :
    processOutput (anchorTensor pointCols) 640 640
      = [{ x1 := 100, y1 := 100, x2 := 100, y2 := 100, label := some "person",
           score := 3 / 4, ref := 0 }] := by
  rw [processOutput, decodeBoxes_pointCols]
  norm_num [sortBoxes, List.insertionSort, List.orderedInsert, confidenceOrder, suppress_cons,
    suppress_nil, keepBox, jsLt, iouThreshold, calculateIOU, jsDiv, intersectionArea,
    unionArea, boxArea]

/-! ### `calculateIOU` -/

theorem intersectionArea_nonneg (a b : Detection) : 0 ≤ intersectionArea a b := by
  unfold intersectionArea
  exact mul_nonneg (le_max_left _ _) (le_max_left _ _)

/-- The result of `calculateIOU` is never `-Infinity`, so it compares below a finite bound
exactly when it is a finite number below it. -/
theorem jsLt_calculateIOU (a b : Detection) (t : ℚ) :
    jsLt (calculateIOU a b) t = true ↔ ∃ q, calculateIOU a b = JSNumber.fin q ∧ q < t := by
  have hnn := intersectionArea_nonneg a b
  unfold calculateIOU jsDiv
  by_cases hu : unionArea a b = 0
  · rw [if_pos hu]
    by_cases hi : intersectionArea a b = 0
    · rw [if_pos hi]
      simp [jsLt]
    · rw [if_neg hi, if_pos (lt_of_le_of_ne hnn (Ne.symm hi))]
      simp [jsLt]
  · rw [if_neg hu]
    simp [jsLt]

theorem processOutput_pairwise (output : List ℚ) (imgWidth imgHeight : ℚ) :
    (processOutput output imgWidth imgHeight).Pairwise
      (fun a b => jsLt (calculateIOU a b) iouThreshold = true) := by
  apply suppress_pairwise
  exact ((sortBoxes_perm _).map Detection.ref).nodup_iff.2
    (decodeBoxes_ref_nodup output imgWidth imgHeight)

theorem intersectionArea_eq_zero_of_boxArea (a b : Detection) (ha : boxArea a = 0) :
    intersectionArea a b = 0 := by
  unfold boxArea at ha
  dsimp only [intersectionArea]
  rcases mul_eq_zero.1 ha with h | h
  · have : max 0 (min a.x2 b.x2 - max a.x1 b.x1) = 0 := by
      apply max_eq_left
      have h1 : min a.x2 b.x2 ≤ a.x2 := min_le_left _ _
      have h2 : a.x1 ≤ max a.x1 b.x1 := le_max_left _ _
      linarith
    rw [this, zero_mul]
  · have : max 0 (min a.y2 b.y2 - max a.y1 b.y1) = 0 := by
      apply max_eq_left
      have h1 : min a.y2 b.y2 ≤ a.y2 := min_le_left _ _
      have h2 : a.y1 ≤ max a.y1 b.y1 := le_max_left _ _
      linarith
    rw [this, mul_zero]

/-- Two boxes of area 0 always give `NaN`, and the second one is then dropped by the
filter of the suppression loop whenever it is another object than the first. -/
theorem calculateIOU_nan_of_boxArea (a b : Detection) (ha : boxArea a = 0)
    (hb : boxArea b = 0) :
    calculateIOU a b = JSNumber.nan ∧ keepBox a b = decide (b.ref = a.ref) := by
  have hi := intersectionArea_eq_zero_of_boxArea a b ha
  have hnan : calculateIOU a b = JSNumber.nan := by
    simp [calculateIOU, jsDiv, unionArea, ha, hb, hi]
  exact ⟨hnan, by simp [keepBox, hnan, jsLt]⟩

/-- A candidate that is missing from the result of the suppression loop failed the test
`calculateIOU(selected, box) < iouThreshold` against a selected box. -/
theorem suppress_absent (l : List Detection) (c : Detection) (hc : c ∈ l)
    (habs : c ∉ suppress l) :
    ∃ s ∈ suppress l, jsLt (calculateIOU s c) iouThreshold = false := by
  induction l using suppress_induction with
  | hnil => cases hc
  | hcons first rest ih =>
    rw [suppress_cons] at habs ⊢
    rw [List.mem_cons, not_or] at habs
    rcases List.mem_cons.1 hc with h | h
    · exact absurd h habs.1
    · by_cases hk : keepBox first c = true
      · obtain ⟨s, hs, hlt⟩ := ih (List.mem_filter.2 ⟨h, hk⟩) habs.2
        exact ⟨s, List.mem_cons_of_mem _ hs, hlt⟩
      · refine ⟨first, List.mem_cons_self _ _, ?_⟩
        simp only [keepBox, Bool.or_eq_true, not_or, Bool.not_eq_true] at hk
        exact hk.1

theorem decodeBoxes_segmentCols :
    decodeBoxes (anchorTensor segmentCols) 640 640
      = [{ x1 := 100, y1 := 80, x2 := 100, y2 := 120, label := some "person",
           score := 3 / 4, ref := 0 },
         { x1 := 380, y1 := 400, x2 := 420, y2 := 400, label := some "bicycle",
           score := 5 / 8, ref := 1 }] := by
  have hlen : segmentCols.length = 2 := rfl
  rw [decodeBoxes_anchorTensor _ _ _ (by rw [hlen]; norm_num [numBoxes]), hlen,
    filterMap_range_two,
    decodeAnchor_anchorTensor_some segmentCols 640 640 0 (by norm_num [numBoxes])
      { cx := 100, cy := 100, w := 0, h := 40, cls := 0, conf := 3 / 4 } rfl
      (by norm_num [numClasses]) (by norm_num [confidenceThreshold]),
    decodeAnchor_anchorTensor_some segmentCols 640 640 1 (by norm_num [numBoxes])
      { cx := 400, cy := 400, w := 40, h := 0, cls := 1, conf := 5 / 8 } rfl
      (by norm_num [numClasses]) (by norm_num [confidenceThreshold])]
  norm_num [yolo_classes]

theorem processOutput_segmentCols :
    processOutput (anchorTensor segmentCols) 640 640
      = [{ x1 := 100, y1 := 80, x2 := 100, y2 := 120, label := some "person",
           score := 3 / 4, ref := 0 }] := by
  rw [processOutput, decodeBoxes_segmentCols]
  norm_num [sortBoxes, List.insertionSort, List.orderedInsert, confidenceOrder, suppress_cons,
    suppress_nil, keepBox, jsLt, iouThreshold, calculateIOU, jsDiv, intersectionArea,
    unionArea, boxArea]

/-! ### The input tensor -/

theorem foldl_channelStep_length (data : List Nat) (m : Nat) (init : Channels) :
    ((List.range m).foldl (channelStep data) init).r.length = init.r.length ∧
    ((List.range m).foldl (channelStep data) init).g.length = init.g.length ∧
    ((List.range m).foldl (channelStep data) init).b.length = init.b.length := by
  induction m with
  | zero => simp
  | succ m ih =>
    simp only [List.range_succ, List.foldl_append, List.foldl_cons, List.foldl_nil]
    simpa [channelStep] using ih

/-- After `m` rounds of the loop, the pixels below `m` hold the scaled bytes and the other
entries are untouched. -/
theorem foldl_channelStep_get (data : List Nat) (m : Nat) (init : Channels) (p : Nat) :
    ((List.range m).foldl (channelStep data) init).r[p]?
      = (if p < m ∧ p < init.r.length then some (byteAt data (3 * p) / 255)
         else init.r[p]?) ∧
    ((List.range m).foldl (channelStep data) init).g[p]?
      = (if p < m ∧ p < init.g.length then some (byteAt data (3 * p + 1) / 255)
         else init.g[p]?) ∧
    ((List.range m).foldl (channelStep data) init).b[p]?
      = (if p < m ∧ p < init.b.length then some (byteAt data (3 * p + 2) / 255)
         else init.b[p]?) := by
  induction m with
  | zero => simp
  | succ m ih =>
    obtain ⟨hr, hg, hb⟩ := foldl_channelStep_length data m init
    simp only [List.range_succ, List.foldl_append, List.foldl_cons, List.foldl_nil]
    generalize (List.range m).foldl (channelStep data) init = ch at ih hr hg hb
    obtain ⟨ihr, ihg, ihb⟩ := ih
    simp only [channelStep, List.getElem?_set, hr, hg, hb, ihr, ihg, ihb]
    by_cases hpm : m = p
    · subst hpm
      simp only [lt_add_one, true_and, if_true]
      refine ⟨?_, ?_, ?_⟩ <;> split_ifs with h <;>
        first
        | rfl
        | exact (List.getElem?_eq_none (not_lt.1 h)).symm
    · have h1 : p < m + 1 ↔ p < m := by omega
      simp [hpm, h1]

theorem fillChannels_spec (data : List Nat) (hlen : data.length = 640 * 640 * 3) :
    (fillChannels data).r.length = 640 * 640 ∧
    (fillChannels data).g.length = 640 * 640 ∧
    (fillChannels data).b.length = 640 * 640 ∧
    ∀ p, p < 640 * 640 →
      (fillChannels data).r[p]? = some (byteAt data (3 * p) / 255) ∧
      (fillChannels data).g[p]? = some (byteAt data (3 * p + 1) / 255) ∧
      (fillChannels data).b[p]? = some (byteAt data (3 * p + 2) / 255) := by
  have hm : (data.length + 2) / 3 = 640 * 640 := by
    rw [hlen]
  unfold fillChannels
  rw [hm]
  obtain ⟨hr, hg, hb⟩ := foldl_channelStep_length data (640 * 640)
    { r := List.replicate (640 * 640) 0, g := List.replicate (640 * 640) 0,
      b := List.replicate (640 * 640) 0 }
  simp only [List.length_replicate] at hr hg hb
  refine ⟨hr, hg, hb, ?_⟩
  intro p hp
  obtain ⟨gr, gg, gb⟩ := foldl_channelStep_get data (640 * 640)
    { r := List.replicate (640 * 640) 0, g := List.replicate (640 * 640) 0,
      b := List.replicate (640 * 640) 0 } p
  simp only [List.length_replicate, hp, and_self, if_true] at gr gg gb
  exact ⟨gr, gg, gb⟩

theorem buildInput_ok (data : List Nat) (hlen : data.length = 640 * 640 * 3) :
    ∃ t, buildInput data = Except.ok t ∧ t.length = 3 * 640 * 640 ∧
      ∀ (p c b : Nat), p < 640 * 640 → c < 3 → data[3 * p + c]? = some b →
        t[c * (640 * 640) + p]? = some ((b : ℚ) / 255) := by
  obtain ⟨hr, hg, hb, hget⟩ := fillChannels_spec data hlen
  refine ⟨(fillChannels data).r ++ (fillChannels data).g ++ (fillChannels data).b, ?_, ?_, ?_⟩
  · unfold buildInput
    rw [if_neg (not_not.2 hlen)]
  · rw [List.length_append, List.length_append, hr, hg, hb]
  · intro p c b hp hc hdata
    obtain ⟨gr, gg, gb⟩ := hget p hp
    have hbyte : byteAt data (3 * p + c) = (b : ℚ) := by
      unfold byteAt
      rw [hdata]
      rfl
    have hc3 : c = 0 ∨ c = 1 ∨ c = 2 := by omega
    rcases hc3 with rfl | rfl | rfl
    · rw [Nat.zero_mul, Nat.zero_add, List.getElem?_append_left (by
        rw [List.length_append, hr, hg]; omega),
        List.getElem?_append_left (by rw [hr]; exact hp), gr, ← hbyte, Nat.add_zero]
    · rw [Nat.one_mul, List.getElem?_append_left (by
        rw [List.length_append, hr, hg]; omega),
        List.getElem?_append_right (by rw [hr]; omega), hr, Nat.add_sub_cancel_left, gg,
        ← hbyte]
    · rw [List.getElem?_append_right (by rw [List.length_append, hr, hg]; omega),
        List.length_append, hr, hg,
        show 2 * (640 * 640) + p - (640 * 640 + 640 * 640) = p by omega, gb, ← hbyte]

theorem buildInput_error (data : List Nat) (hlen : data.length ≠ 640 * 640 * 3) :
    buildInput data = Except.error (PipelineError.invalidDimensions data.length) := by
  unfold buildInput
  rw [if_pos hlen]

theorem prepareInput_eq {Buffer : Type} (ext : Externals Buffer) (imageBuffer : Buffer)
    (imgWidth imgHeight : Nat) (data : List Nat)
    (hmeta : ext.metadata imageBuffer = Except.ok (some (imgWidth, imgHeight)))
    (hw : imgWidth ≠ 0) (hh : imgHeight ≠ 0)
    (hdata : ext.resizeRaw imageBuffer = Except.ok data) :
    prepareInput ext imageBuffer
      = match buildInput data with
        | Except.ok input => Except.ok (input, imgWidth, imgHeight)
        | Except.error e => Except.error e := by
  unfold prepareInput
  simp only [hmeta, hdata, checkMetadata, hw, hh, or_self, if_false, bind, Except.bind, pure,
    Except.pure]
  cases buildInput data <;> rfl

/-! ### The frame loop -/

theorem foldl_push_eq_map {α β : Type} (f : α → β) (l : List α) (init : List β) :
    l.foldl (fun acc a => acc ++ [f a]) init = init ++ l.map f := by
  induction l generalizing init with
  | nil => simp
  | cons a l ih => rw [List.foldl_cons, ih, List.map_cons, List.append_assoc]; rfl

theorem frameLoop_eq_map {File Buffer : Type} (ext : Externals Buffer)
    (readFileSync : File → Buffer) (frameFiles : List File) :
    frameLoop ext readFileSync frameFiles
      = frameFiles.map (fun file => detectObjectsOnImage ext (readFileSync file)) := by
  unfold frameLoop
  rw [foldl_push_eq_map (fun file => detectObjectsOnImage ext (readFileSync file)),
    List.nil_append]

theorem framePipeline_eq {Buffer : Type} (ext : Externals Buffer)
    (imageBuffer processedBuffer : Buffer) (width height imgWidth imgHeight : Nat)
    (input : List ℚ)
    (hmeta : ext.metadata imageBuffer = Except.ok (some (width, height)))
    (hw : width ≠ 0) (hh : height ≠ 0)
    (hjpeg : ext.jpeg imageBuffer = Except.ok processedBuffer)
    (hprep : prepareInput ext processedBuffer = Except.ok (input, imgWidth, imgHeight)) :
    framePipeline ext imageBuffer
      = match ext.inference input with
        | Except.error e => Except.error e
        | Except.ok none => Except.error PipelineError.invalidModelOutput
        | Except.ok (some output) =>
          Except.ok (processOutput output (imgWidth : ℚ) (imgHeight : ℚ)) := by
  unfold framePipeline runModel
  simp only [hmeta, hjpeg, hprep, checkMetadata, hw, hh, or_self, if_false, bind, Except.bind,
    pure, Except.pure]
  cases ext.inference input with
  | error e => rfl
  | ok results => cases results <;> rfl

/-- The sample pipeline on a gray frame: the engine fails on the black frame, and any
other frame gives the detections of `anchorTensor apartCols`. -/
theorem framePipeline_gray (gray : Nat) :
    framePipeline grayExternals gray
      = if gray = 0 then Except.error (PipelineError.external "inference failed")
        else Except.ok (processOutput (anchorTensor apartCols) 640 640) := by
  have hprep := prepareInput_eq grayExternals gray 640 640
    (List.replicate (640 * 640 * 3) gray) rfl (by norm_num) (by norm_num) rfl
  obtain ⟨t, hbuild, -, hget⟩ := buildInput_ok (List.replicate (640 * 640 * 3) gray)
    (List.length_replicate _ _)
  have h0 : t[0]? = some ((gray : ℚ) / 255) := by
    have := hget 0 0 gray (by norm_num) (by norm_num)
      (by rw [List.getElem?_replicate]; norm_num)
    simpa using this
  rw [hbuild] at hprep
  have hinf : grayExternals.inference t
      = if t[0]? = some 0 then Except.error (PipelineError.external "inference failed")
        else Except.ok (some (anchorTensor apartCols)) := rfl
  rw [framePipeline_eq grayExternals gray gray 640 640 640 640 t rfl (by norm_num)
    (by norm_num) rfl hprep, hinf, h0, Nat.cast_ofNat]
  by_cases hg : gray = 0
  · have hc : (some ((gray : ℚ) / 255) : Option ℚ) = some 0 := by
      rw [hg]
      norm_num
    rw [if_pos hc, if_pos hg]
  · have hc : ¬ ((some ((gray : ℚ) / 255) : Option ℚ) = some 0) := by
      intro h
      rw [Option.some.injEq, div_eq_zero_iff] at h
      rcases h with h | h
      · exact hg (by exact_mod_cast h)
      · norm_num at h
    rw [if_neg hc, if_neg hg]

/-! ### Claims -/

/-- C1: any two entries at distinct positions `i`, `j` of the list returned by
`processOutput` have a `calculateIOU` that is a finite number strictly below
`iouThreshold` (0.7), in both argument orders, for every tensor and image size; the
entries may agree in all six fields. -/
theorem processOutput_iou_below_threshold (output : List ℚ) (imgWidth imgHeight : ℚ)
    (i j : Nat) (a b : Detection) (hij : i ≠ j)
    (ha : (processOutput output imgWidth imgHeight)[i]? = some a)
    (hb : (processOutput output imgWidth imgHeight)[j]? = some b) :
    (∃ q, calculateIOU a b = JSNumber.fin q ∧ q < iouThreshold) ∧
    (∃ q, calculateIOU b a = JSNumber.fin q ∧ q < iouThreshold) := by
  have hpw := List.pairwise_iff_getElem.1 (processOutput_pairwise output imgWidth imgHeight)
  obtain ⟨hi, rfl⟩ := List.getElem?_eq_some_iff.1 ha
  obtain ⟨hj, rfl⟩ := List.getElem?_eq_some_iff.1 hb
  rw [← jsLt_calculateIOU, ← jsLt_calculateIOU]
  rcases Nat.lt_or_gt_of_ne hij with h | h
  · have := hpw i j hi hj h
    exact ⟨this, calculateIOU_comm _ _ ▸ this⟩
  · have := hpw j i hj hi h
    exact ⟨calculateIOU_comm _ _ ▸ this, this⟩

theorem processOutput_iou_below_threshold_witness :
    (0 : Nat) ≠ 1 ∧
    (processOutput (anchorTensor apartCols) 640 640)[0]?
      = some { x1 := 80, y1 := 80, x2 := 120, y2 := 120, label := some "person",
               score := 3 / 4, ref := 0 } ∧
    (processOutput (anchorTensor apartCols) 640 640)[1]?
      = some { x1 := 380, y1 := 380, x2 := 420, y2 := 420, label := some "car",
               score := 5 / 8, ref := 1 } ∧
    (∃ q, calculateIOU
        { x1 := 80, y1 := 80, x2 := 120, y2 := 120, label := some "person",
          score := 3 / 4, ref := 0 }
        { x1 := 380, y1 := 380, x2 := 420, y2 := 420, label := some "car",
          score := 5 / 8, ref := 1 } = JSNumber.fin q ∧ q < iouThreshold) ∧
    (∃ q, calculateIOU
        { x1 := 380, y1 := 380, x2 := 420, y2 := 420, label := some "car",
          score := 5 / 8, ref := 1 }
        { x1 := 80, y1 := 80, x2 := 120, y2 := 120, label := some "person",
          score := 3 / 4, ref := 0 } = JSNumber.fin q ∧ q < iouThreshold) :=
  ⟨by decide, by rw [processOutput_apartCols]; rfl, by rw [processOutput_apartCols]; rfl,
    processOutput_iou_below_threshold (anchorTensor apartCols) 640 640 0 1 _ _ (by decide)
      (by rw [processOutput_apartCols]; rfl) (by rw [processOutput_apartCols]; rfl)⟩

/-- C2 (as stated, refuted): an anchor whose best class score is exactly 0.5 is returned,
with a score that does not exceed the threshold. -/
theorem processOutput_score_not_above_threshold :
    processOutput (anchorTensor halfCols) 640 640
      = [{ x1 := 270, y1 := 220, x2 := 370, y2 := 420, label := some "person",
           score := 1 / 2, ref := 0 }] ∧
    ¬ ∀ d ∈ processOutput (anchorTensor halfCols) 640 640, confidenceThreshold < d.score := by
  refine ⟨processOutput_halfCols, ?_⟩
  rw [processOutput_halfCols]
  norm_num [confidenceThreshold]

/-- C2 (amended): every detection returned by `processOutput` has a confidence score of at
least 0.5, the confidence threshold. -/
theorem processOutput_score_ge_threshold (output : List ℚ) (imgWidth imgHeight : ℚ)
    (d : Detection) (hd : d ∈ processOutput output imgWidth imgHeight) :
    confidenceThreshold ≤ d.score := by
  have h := (mem_decodeBoxes.1 (mem_decodeBoxes_of_mem_processOutput hd)).2
  dsimp only [decodeAnchor] at h
  split_ifs at h with hlt
  simp only [Option.some.injEq] at h
  rw [← h]
  exact not_lt.1 hlt

theorem processOutput_score_ge_threshold_witness :
    ({ x1 := 80, y1 := 80, x2 := 120, y2 := 120, label := some "person",
       score := 3 / 4, ref := 0 } : Detection) ∈ processOutput (anchorTensor apartCols) 640 640 ∧
    confidenceThreshold ≤ (3 / 4 : ℚ) :=
  ⟨by rw [processOutput_apartCols]; simp,
    processOutput_score_ge_threshold (anchorTensor apartCols) 640 640
      { x1 := 80, y1 := 80, x2 := 120, y2 := 120, label := some "person",
        score := 3 / 4, ref := 0 } (by rw [processOutput_apartCols]; simp)⟩

/-- C3 (as stated, refuted): on a 640 x 640 image, an anchor with centre x = 1000 and
width 10 is returned with x1 = 995 and x2 = 640, so neither x1 ≤ x2 nor x1 ≤ W holds. -/
theorem processOutput_box_not_wellformed :
    processOutput (anchorTensor outsideCols) 640 640
      = [{ x1 := 995, y1 := 315, x2 := 640, y2 := 325, label := some "person",
           score := 3 / 4, ref := 0 }] ∧
    ¬ ∀ d ∈ processOutput (anchorTensor outsideCols) 640 640,
        0 ≤ d.x1 ∧ d.x1 ≤ d.x2 ∧ d.x2 ≤ 640 ∧ 0 ≤ d.y1 ∧ d.y1 ≤ d.y2 ∧ d.y2 ≤ 640 := by
  refine ⟨processOutput_outsideCols, ?_⟩
  rw [processOutput_outsideCols]
  norm_num

/-- C3 (amended): for positive `W`, `H`, every detection returned by `processOutput` has
`0 ≤ x1`, `x2 ≤ W`, `0 ≤ y1`, `y2 ≤ H`; and `x1 ≤ x2` holds when the anchor's box
`(cx, w)` has `0 ≤ w`, `cx - w/2 ≤ 640` and `0 ≤ cx + w/2`, likewise `y1 ≤ y2` for
`(cy, h)`. -/
theorem processOutput_box_clamped (output : List ℚ) (imgWidth imgHeight : ℚ)
    (hW : 0 < imgWidth) (hH : 0 < imgHeight)
    (d : Detection) (hd : d ∈ processOutput output imgWidth imgHeight) :
    0 ≤ d.x1 ∧ d.x2 ≤ imgWidth ∧ 0 ≤ d.y1 ∧ d.y2 ≤ imgHeight ∧
    (0 ≤ (readTensor output (2 * numBoxes + d.ref)).getD 0 →
      (readTensor output d.ref).getD 0
        - (readTensor output (2 * numBoxes + d.ref)).getD 0 / 2 ≤ 640 →
      0 ≤ (readTensor output d.ref).getD 0
        + (readTensor output (2 * numBoxes + d.ref)).getD 0 / 2 →
      d.x1 ≤ d.x2) ∧
    (0 ≤ (readTensor output (3 * numBoxes + d.ref)).getD 0 →
      (readTensor output (numBoxes + d.ref)).getD 0
        - (readTensor output (3 * numBoxes + d.ref)).getD 0 / 2 ≤ 640 →
      0 ≤ (readTensor output (numBoxes + d.ref)).getD 0
        + (readTensor output (3 * numBoxes + d.ref)).getD 0 / 2 →
      d.y1 ≤ d.y2) := by
  have h := (mem_decodeBoxes.1 (mem_decodeBoxes_of_mem_processOutput hd)).2
  generalize d.ref = i at h ⊢
  dsimp only [decodeAnchor] at h
  split_ifs at h with hlt
  simp only [Option.some.injEq] at h
  subst h
  dsimp only
  generalize (readTensor output i).getD 0 = x
  generalize (readTensor output (numBoxes + i)).getD 0 = y
  generalize (readTensor output (2 * numBoxes + i)).getD 0 = w
  generalize (readTensor output (3 * numBoxes + i)).getD 0 = h
  have key : ∀ (c s L : ℚ), 0 < L → 0 ≤ s → c - s / 2 ≤ 640 → 0 ≤ c + s / 2 →
      max 0 ((c - s / 2) / 640 * L) ≤ min L ((c + s / 2) / 640 * L) := by
    intro c s L hL hs h1 h2
    have e1 : (c - s / 2) / 640 * L = (c - s / 2) * L / 640 := by ring
    have e2 : (c + s / 2) / 640 * L = (c + s / 2) * L / 640 := by ring
    have p1 : (c - s / 2) * L ≤ 640 * L := mul_le_mul_of_nonneg_right h1 hL.le
    have p2 : 0 ≤ (c + s / 2) * L := mul_nonneg h2 hL.le
    have p3 : (c - s / 2) * L ≤ (c + s / 2) * L :=
      mul_le_mul_of_nonneg_right (by linarith) hL.le
    rw [e1, e2]
    refine max_le (le_min hL.le (by positivity)) (le_min ?_ ?_)
    · rw [div_le_iff₀ (by norm_num : (0 : ℚ) < 640)]
      linarith
    · exact div_le_div_of_nonneg_right p3 (by norm_num)
  exact ⟨le_max_left _ _, min_le_left _ _, le_max_left _ _, min_le_left _ _,
    key x w imgWidth hW, key y h imgHeight hH⟩

theorem processOutput_box_clamped_witness :
    (0 : ℚ) < 640 ∧
    ({ x1 := 80, y1 := 80, x2 := 120, y2 := 120, label := some "person",
       score := 3 / 4, ref := 0 } : Detection)
      ∈ processOutput (anchorTensor apartCols) 640 640 ∧
    (0 : ℚ) ≤ 80 ∧ (120 : ℚ) ≤ 640 ∧ (0 : ℚ) ≤ 80 ∧ (120 : ℚ) ≤ 640 ∧
    ((80 : ℚ) ≤ 120) ∧ ((80 : ℚ) ≤ 120) := by
  have hmem :
      ({ x1 := 80, y1 := 80, x2 := 120, y2 := 120, label := some "person",
         score := 3 / 4, ref := 0 } : Detection)
        ∈ processOutput (anchorTensor apartCols) 640 640 := by
    rw [processOutput_apartCols]; simp
  have h := processOutput_box_clamped (anchorTensor apartCols) 640 640 (by norm_num)
    (by norm_num) _ hmem
  obtain ⟨hx, hy, hw, hh⟩ := read_box_anchorTensor apartCols 0 (by norm_num [numBoxes])
  have e0 : apartCols[0]? = some
      { cx := 100, cy := 100, w := 40, h := 40, cls := 0, conf := 3 / 4 } := rfl
  dsimp only at h
  rw [Nat.add_zero] at hy hw hh
  rw [Nat.add_zero, Nat.add_zero, Nat.add_zero, hx, hy, hw, hh, e0] at h
  obtain ⟨h1, h2, h3, h4, h5, h6⟩ := h
  exact ⟨by norm_num, hmem, h1, h2, h3, h4, h5 (by norm_num) (by norm_num) (by norm_num),
    h6 (by norm_num) (by norm_num) (by norm_num)⟩

/-- C5 (violated by the code): for the two zero-area boxes decoded from `pointCols` the
union area is 0 and `calculateIOU` gives `NaN`, not 0; the comparison with `iouThreshold`
is then false and `processOutput` drops the second box, 200 pixels away from the first. -/
theorem calculateIOU_zero_union_is_nan :
    decodeBoxes (anchorTensor pointCols) 640 640
      = [{ x1 := 100, y1 := 100, x2 := 100, y2 := 100, label := some "person",
           score := 3 / 4, ref := 0 },
         { x1 := 300, y1 := 300, x2 := 300, y2 := 300, label := some "person",
           score := 5 / 8, ref := 1 }] ∧
    unionArea
        { x1 := 100, y1 := 100, x2 := 100, y2 := 100, label := some "person",
          score := 3 / 4, ref := 0 }
        { x1 := 300, y1 := 300, x2 := 300, y2 := 300, label := some "person",
          score := 5 / 8, ref := 1 } = 0 ∧
    calculateIOU
        { x1 := 100, y1 := 100, x2 := 100, y2 := 100, label := some "person",
          score := 3 / 4, ref := 0 }
        { x1 := 300, y1 := 300, x2 := 300, y2 := 300, label := some "person",
          score := 5 / 8, ref := 1 } = JSNumber.nan ∧
    JSNumber.nan ≠ JSNumber.fin 0 ∧
    processOutput (anchorTensor pointCols) 640 640
      = [{ x1 := 100, y1 := 100, x2 := 100, y2 := 100, label := some "person",
           score := 3 / 4, ref := 0 }] := by
  refine ⟨decodeBoxes_pointCols, ?_, ?_, by decide, processOutput_pointCols⟩
  · norm_num [unionArea, boxArea, intersectionArea]
  · norm_num [calculateIOU, jsDiv, unionArea, boxArea, intersectionArea]

/-- C10 (violated by the code): the second candidate decoded from `segmentCols` is missing
from the result of `processOutput`, yet no returned detection has a `calculateIOU` with it
that is `>= iouThreshold`: the only returned detection gives `NaN`. -/
theorem processOutput_absent_without_overlap :
    ({ x1 := 380, y1 := 400, x2 := 420, y2 := 400, label := some "bicycle",
       score := 5 / 8, ref := 1 } : Detection)
      ∈ decodeBoxes (anchorTensor segmentCols) 640 640 ∧
    ({ x1 := 380, y1 := 400, x2 := 420, y2 := 400, label := some "bicycle",
       score := 5 / 8, ref := 1 } : Detection)
      ∉ processOutput (anchorTensor segmentCols) 640 640 ∧
    (∀ s ∈ processOutput (anchorTensor segmentCols) 640 640,
      calculateIOU s
        { x1 := 380, y1 := 400, x2 := 420, y2 := 400, label := some "bicycle",
          score := 5 / 8, ref := 1 } = JSNumber.nan ∧
      jsGe (calculateIOU s
        { x1 := 380, y1 := 400, x2 := 420, y2 := 400, label := some "bicycle",
          score := 5 / 8, ref := 1 }) iouThreshold = false) := by
  rw [decodeBoxes_segmentCols, processOutput_segmentCols]
  refine ⟨by simp, by simp, ?_⟩
  intro s hs
  rw [List.mem_singleton] at hs
  subst hs
  norm_num [calculateIOU, jsDiv, jsGe, unionArea, boxArea, intersectionArea]

/-- C6: for well-formed boxes `A`, `B` (x1 ≤ x2 and y1 ≤ y2 in each) with positive union
area, `calculateIOU A B` is a finite number in `[0, 1]`; it is 1 when `B` has the
coordinates of `A` (the box is then non-degenerate, its area being the union area), and it
is 0 when the boxes do not overlap on some axis. -/
theorem calculateIOU_unit_interval (A B : Detection)
    (hA : A.x1 ≤ A.x2 ∧ A.y1 ≤ A.y2) (hB : B.x1 ≤ B.x2 ∧ B.y1 ≤ B.y2)
    (hU : 0 < unionArea A B) :
    (∃ q, calculateIOU A B = JSNumber.fin q ∧ 0 ≤ q ∧ q ≤ 1) ∧
    (A.x1 = B.x1 ∧ A.y1 = B.y1 ∧ A.x2 = B.x2 ∧ A.y2 = B.y2 →
      calculateIOU A B = JSNumber.fin 1) ∧
    (min A.x2 B.x2 ≤ max A.x1 B.x1 ∨ min A.y2 B.y2 ≤ max A.y1 B.y1 →
      calculateIOU A B = JSNumber.fin 0) := by
  have hval : calculateIOU A B = JSNumber.fin (intersectionArea A B / unionArea A B) := by
    unfold calculateIOU jsDiv
    rw [if_neg (ne_of_gt hU)]
  have hnn := intersectionArea_nonneg A B
  have hex0 : 0 ≤ max 0 (min A.x2 B.x2 - max A.x1 B.x1) := le_max_left _ _
  have hey0 : 0 ≤ max 0 (min A.y2 B.y2 - max A.y1 B.y1) := le_max_left _ _
  have hexB : max 0 (min A.x2 B.x2 - max A.x1 B.x1) ≤ B.x2 - B.x1 := by
    apply max_le (by linarith [hB.1])
    have h1 : min A.x2 B.x2 ≤ B.x2 := min_le_right _ _
    have h2 : B.x1 ≤ max A.x1 B.x1 := le_max_right _ _
    linarith
  have heyB : max 0 (min A.y2 B.y2 - max A.y1 B.y1) ≤ B.y2 - B.y1 := by
    apply max_le (by linarith [hB.2])
    have h1 : min A.y2 B.y2 ≤ B.y2 := min_le_right _ _
    have h2 : B.y1 ≤ max A.y1 B.y1 := le_max_right _ _
    linarith
  have hiB : intersectionArea A B ≤ boxArea B := by
    dsimp only [intersectionArea, boxArea]
    exact mul_le_mul hexB heyB hey0 (by linarith [hB.1])
  have hexA : max 0 (min A.x2 B.x2 - max A.x1 B.x1) ≤ A.x2 - A.x1 := by
    apply max_le (by linarith [hA.1])
    have h1 : min A.x2 B.x2 ≤ A.x2 := min_le_left _ _
    have h2 : A.x1 ≤ max A.x1 B.x1 := le_max_left _ _
    linarith
  have heyA : max 0 (min A.y2 B.y2 - max A.y1 B.y1) ≤ A.y2 - A.y1 := by
    apply max_le (by linarith [hA.2])
    have h1 : min A.y2 B.y2 ≤ A.y2 := min_le_left _ _
    have h2 : A.y1 ≤ max A.y1 B.y1 := le_max_left _ _
    linarith
  have hiA : intersectionArea A B ≤ boxArea A := by
    dsimp only [intersectionArea, boxArea]
    exact mul_le_mul hexA heyA hey0 (by linarith [hA.1])
  have hle : intersectionArea A B ≤ unionArea A B := by
    unfold unionArea
    unfold unionArea at hU
    by_contra hcon
    rw [not_le] at hcon
    linarith
  refine ⟨⟨_, hval, div_nonneg hnn hU.le, (div_le_one hU).2 hle⟩, ?_, ?_⟩
  · rintro ⟨h1, h2, h3, h4⟩
    have hi : intersectionArea A B = boxArea A := by
      dsimp only [intersectionArea, boxArea]
      rw [← h1, ← h2, ← h3, ← h4, min_self, min_self, max_self, max_self,
        max_eq_right (by linarith [hA.1]), max_eq_right (by linarith [hA.2])]
    have hb : boxArea B = boxArea A := by
      unfold boxArea
      rw [h1, h2, h3, h4]
    have hu : unionArea A B = boxArea A := by
      unfold unionArea
      rw [hi, hb]
      ring
    rw [hval, hi, hu]
    rw [hu] at hU
    rw [div_self (ne_of_gt hU)]
  · intro h
    have hi : intersectionArea A B = 0 := by
      dsimp only [intersectionArea]
      rcases h with h | h
      · have h0 : max 0 (min A.x2 B.x2 - max A.x1 B.x1) = 0 := max_eq_left (by linarith)
        rw [h0, zero_mul]
      · have h0 : max 0 (min A.y2 B.y2 - max A.y1 B.y1) = 0 := max_eq_left (by linarith)
        rw [h0, mul_zero]
    rw [hval, hi, zero_div]

theorem calculateIOU_unit_interval_witness :
    ((0 : ℚ) ≤ 10 ∧ (0 : ℚ) ≤ 10) ∧ ((0 : ℚ) ≤ 10 ∧ (0 : ℚ) ≤ 8) ∧
    (∃ q, calculateIOU
        { x1 := 0, y1 := 0, x2 := 10, y2 := 10, label := some "person", score := 3 / 4,
          ref := 0 }
        { x1 := 0, y1 := 0, x2 := 10, y2 := 8, label := some "person", score := 5 / 8,
          ref := 1 } = JSNumber.fin q ∧ 0 ≤ q ∧ q ≤ 1) :=
  ⟨by norm_num, by norm_num,
    (calculateIOU_unit_interval
      { x1 := 0, y1 := 0, x2 := 10, y2 := 10, label := some "person", score := 3 / 4,
        ref := 0 }
      { x1 := 0, y1 := 0, x2 := 10, y2 := 8, label := some "person", score := 5 / 8,
        ref := 1 }
      (by norm_num) (by norm_num)
      (by norm_num [unionArea, boxArea, intersectionArea])).1⟩

/-- C7: a candidate pushed for anchor column `i = d.ref` carries as confidence the maximum
of the class scores `output[8400 * (j + 4) + i]`, `j < 80`, and as label
`yolo_classes[k]` for the smallest class index `k` attaining that maximum; `k` is below
80, so the label is an entry of the table. -/
theorem decodeBoxes_argmax (output : List ℚ) (imgWidth imgHeight : ℚ) (d : Detection)
    (hd : d ∈ decodeBoxes output imgWidth imgHeight) :
    d.ref < numBoxes ∧
    ∃ k, k < numClasses ∧
      readTensor output (numBoxes * (k + 4) + d.ref) = some d.score ∧
      (∀ j, j < numClasses → ∀ v,
        readTensor output (numBoxes * (j + 4) + d.ref) = some v → v ≤ d.score) ∧
      (∀ j, j < k → ∀ v,
        readTensor output (numBoxes * (j + 4) + d.ref) = some v → v < d.score) ∧
      d.label = yolo_classes[k]? ∧ ∃ name, yolo_classes[k]? = some name := by
  obtain ⟨hi, h⟩ := mem_decodeBoxes.1 hd
  refine ⟨hi, ?_⟩
  generalize d.ref = i at h ⊢
  obtain ⟨hmax, hcase⟩ := classScan_spec output i
  dsimp only [decodeAnchor] at h
  split_ifs at h with hlt
  simp only [Option.some.injEq] at h
  subst h
  dsimp only
  rcases hcase with h0 | ⟨k, hk, hcls, hread, -, hfirst⟩
  · rw [h0] at hlt
    exact absurd (by norm_num [confidenceThreshold]) hlt
  · refine ⟨k, hk, hread, hmax, hfirst, ?_, ?_⟩
    · rw [hcls]
      simp [classLabel]
    · have hlen : k < yolo_classes.length := by
        have : yolo_classes.length = 80 := rfl
        rw [this]
        exact hk
      exact ⟨yolo_classes[k], List.getElem?_eq_getElem hlen⟩

theorem decodeBoxes_argmax_witness :
    ({ x1 := 380, y1 := 380, x2 := 420, y2 := 420, label := some "car",
       score := 5 / 8, ref := 1 } : Detection)
      ∈ decodeBoxes (anchorTensor apartCols) 640 640 ∧
    (1 < numBoxes ∧
      ∃ k, k < numClasses ∧
        readTensor (anchorTensor apartCols) (numBoxes * (k + 4) + 1) = some (5 / 8) ∧
        (∀ j, j < numClasses → ∀ v,
          readTensor (anchorTensor apartCols) (numBoxes * (j + 4) + 1) = some v → v ≤ 5 / 8) ∧
        (∀ j, j < k → ∀ v,
          readTensor (anchorTensor apartCols) (numBoxes * (j + 4) + 1) = some v → v < 5 / 8) ∧
        some "car" = yolo_classes[k]? ∧ ∃ name, yolo_classes[k]? = some name) :=
  ⟨by rw [decodeBoxes_apartCols]; simp,
    decodeBoxes_argmax (anchorTensor apartCols) 640 640
      { x1 := 380, y1 := 380, x2 := 420, y2 := 420, label := some "car",
        score := 5 / 8, ref := 1 }
      (by rw [decodeBoxes_apartCols]; simp)⟩

/-- C9: the result of the suppression stage on a candidate list is a subsequence of the
candidates sorted by confidence, descending, with the sort stable: the sorted list is a
permutation of the candidates in non-increasing confidence whose entries of any one
confidence are in candidate order; so the result has non-increasing confidences, its
entries of one confidence are in candidate order, and for a non-empty candidate list its
first entry is the first candidate of highest confidence. -/
theorem suppress_sorted_subsequence (cands : List Detection) :
    (suppress (sortBoxes cands)).Sublist (sortBoxes cands) ∧
    (sortBoxes cands).Perm cands ∧
    (sortBoxes cands).Pairwise (fun a b => b.score ≤ a.score) ∧
    (∀ s : ℚ, (sortBoxes cands).filter (fun d => decide (d.score = s))
        = cands.filter (fun d => decide (d.score = s))) ∧
    (suppress (sortBoxes cands)).Pairwise (fun a b => b.score ≤ a.score) ∧
    (∀ s : ℚ, ((suppress (sortBoxes cands)).filter (fun d => decide (d.score = s))).Sublist
        (cands.filter (fun d => decide (d.score = s)))) ∧
    (cands ≠ [] →
      ∃ top, (suppress (sortBoxes cands)).head? = some top ∧
        (∀ c ∈ cands, c.score ≤ top.score) ∧
        cands.find? (fun d => decide (d.score = top.score)) = some top) := by
  have hsub := suppress_sublist (sortBoxes cands)
  have hperm := sortBoxes_perm cands
  have hsorted := sortBoxes_sorted cands
  refine ⟨hsub, hperm, hsorted, sortBoxes_stable cands, hsorted.sublist hsub, ?_, ?_⟩
  · intro s
    rw [← sortBoxes_stable cands s]
    exact hsub.filter _
  · intro hne
    cases hs : sortBoxes cands with
    | nil =>
      rw [hs] at hperm
      exact absurd hperm.symm.eq_nil hne
    | cons top rest =>
      refine ⟨top, by rw [suppress_cons]; rfl, ?_, ?_⟩
      · intro c hc
        have hc2 : c ∈ top :: rest := hs ▸ hperm.symm.subset hc
        rw [hs, List.pairwise_cons] at hsorted
        rcases List.mem_cons.1 hc2 with h | h
        · rw [h]
        · exact hsorted.1 c h
      · rw [← List.filter_head?, ← sortBoxes_stable cands top.score, hs]
        simp [List.filter_cons]

theorem suppress_sorted_subsequence_witness :
    ([{ x1 := 0, y1 := 0, x2 := 10, y2 := 8, label := some "person", score := 5 / 8,
        ref := 0 },
      { x1 := 0, y1 := 0, x2 := 10, y2 := 10, label := some "person", score := 3 / 4,
        ref := 1 }] : List Detection) ≠ [] ∧
    ∃ top,
      (suppress (sortBoxes
        [{ x1 := 0, y1 := 0, x2 := 10, y2 := 8, label := some "person", score := 5 / 8,
           ref := 0 },
         { x1 := 0, y1 := 0, x2 := 10, y2 := 10, label := some "person", score := 3 / 4,
           ref := 1 }])).head? = some top ∧
      (∀ c ∈ ([{ x1 := 0, y1 := 0, x2 := 10, y2 := 8, label := some "person",
                 score := 5 / 8, ref := 0 },
               { x1 := 0, y1 := 0, x2 := 10, y2 := 10, label := some "person",
                 score := 3 / 4, ref := 1 }] : List Detection), c.score ≤ top.score) ∧
      List.find? (fun d => decide (d.score = top.score))
        [{ x1 := 0, y1 := 0, x2 := 10, y2 := 8, label := some "person", score := 5 / 8,
           ref := 0 },
         { x1 := 0, y1 := 0, x2 := 10, y2 := 10, label := some "person", score := 3 / 4,
           ref := 1 }] = some top :=
  ⟨by simp, (suppress_sorted_subsequence _).2.2.2.2.2.2 (by simp)⟩

/-- C8: when the resized buffer has exactly 640*640*3 bytes, `prepareInput` returns a
tensor of exactly 3*640*640 = 1,228,800 elements, planar in R, G, B order:
`tensor[c * 409600 + p] = data[3 * p + c] / 255` for every pixel `p < 409600` and channel
`c < 3`, so every element lies in `[0, 1]`; a buffer of any other length is rejected with
the error `Invalid image dimensions`. -/
theorem prepareInput_tensor {Buffer : Type} (ext : Externals Buffer) (imageBuffer : Buffer)
    (imgWidth imgHeight : Nat) (data : List Nat)
    (hmeta : ext.metadata imageBuffer = Except.ok (some (imgWidth, imgHeight)))
    (hw : imgWidth ≠ 0) (hh : imgHeight ≠ 0)
    (hdata : ext.resizeRaw imageBuffer = Except.ok data)
    (hbytes : ∀ b ∈ data, b < 256) :
    (data.length = 640 * 640 * 3 →
      ∃ t, prepareInput ext imageBuffer = Except.ok (t, imgWidth, imgHeight) ∧
        t.length = 1228800 ∧
        (∀ (p c : Nat), p < 409600 → c < 3 →
          ∃ b, data[3 * p + c]? = some b ∧ t[c * 409600 + p]? = some ((b : ℚ) / 255)) ∧
        ∀ v ∈ t, 0 ≤ v ∧ v ≤ 1) ∧
    (data.length ≠ 640 * 640 * 3 →
      prepareInput ext imageBuffer
        = Except.error (PipelineError.invalidDimensions data.length)) := by
  have heq := prepareInput_eq ext imageBuffer imgWidth imgHeight data hmeta hw hh hdata
  constructor
  · intro hlen
    obtain ⟨t, hbuild, htlen, hget⟩ := buildInput_ok data hlen
    have hget2 : ∀ (p c : Nat), p < 409600 → c < 3 →
        ∃ b, data[3 * p + c]? = some b ∧ t[c * 409600 + p]? = some ((b : ℚ) / 255) := by
      intro p c hp hc
      have hin : 3 * p + c < data.length := by
        rw [hlen]
        omega
      exact ⟨data[3 * p + c], List.getElem?_eq_getElem hin,
        hget p c _ hp hc (List.getElem?_eq_getElem hin)⟩
    refine ⟨t, ?_, htlen, hget2, ?_⟩
    · rw [heq, hbuild]
    · intro v hv
      obtain ⟨n, hn⟩ := List.mem_iff_getElem?.1 hv
      obtain ⟨hnlt, -⟩ := List.getElem?_eq_some_iff.1 hn
      rw [htlen] at hnlt
      obtain ⟨b, hb, hval⟩ := hget2 (n % 409600) (n / 409600) (Nat.mod_lt _ (by norm_num))
        (by omega)
      have hidx : n / 409600 * 409600 + n % 409600 = n := Nat.div_add_mod' n 409600
      rw [hidx, hn] at hval
      simp only [Option.some.injEq] at hval
      have hb256 : b < 256 := hbytes b (List.getElem?_mem hb)
      have hbq : (b : ℚ) ≤ 255 := by
        have : b ≤ 255 := by omega
        exact_mod_cast this
      have hb0 : (0 : ℚ) ≤ (b : ℚ) := Nat.cast_nonneg b
      rw [hval]
      constructor
      · positivity
      · rw [div_le_one (by norm_num)]
        exact hbq
  · intro hlen
    rw [heq, buildInput_error data hlen]

theorem prepareInput_tensor_witness :
    grayExternals.metadata 128 = Except.ok (some (640, 640)) ∧
    grayExternals.resizeRaw 128 = Except.ok (List.replicate (640 * 640 * 3) 128) ∧
    (∀ b ∈ List.replicate (640 * 640 * 3) 128, b < 256) ∧
    (List.replicate (640 * 640 * 3) 128).length = 640 * 640 * 3 ∧
    ∃ t, prepareInput grayExternals 128 = Except.ok (t, 640, 640) ∧
      t.length = 1228800 ∧
      (∀ (p c : Nat), p < 409600 → c < 3 →
        ∃ b : Nat, (List.replicate (640 * 640 * 3) (128 : Nat))[3 * p + c]? = some b ∧
          t[c * 409600 + p]? = some ((b : ℚ) / 255)) ∧
      ∀ v ∈ t, 0 ≤ v ∧ v ≤ 1 :=
  ⟨rfl, rfl,
    fun b hb => by rw [(List.mem_replicate.1 hb).2]; norm_num,
    List.length_replicate _ _,
    (prepareInput_tensor grayExternals 128 640 640 (List.replicate (640 * 640 * 3) 128) rfl
      (by norm_num) (by norm_num) rfl
      (fun b hb => by rw [(List.mem_replicate.1 hb).2]; norm_num)).1
      (List.length_replicate _ _)⟩

/-- C4: the frame loop of `detectObjectsInVideo` yields one entry per frame file, in order;
the entry of a frame is the detection list of its pipeline when the pipeline succeeds and
the empty list when it throws, whatever happens on the other frames. -/
theorem frameLoop_isolates_failures {File Buffer : Type} (ext : Externals Buffer)
    (readFileSync : File → Buffer) (frameFiles : List File) :
    (frameLoop ext readFileSync frameFiles).length = frameFiles.length ∧
    ∀ (k : Nat) (file : File), frameFiles[k]? = some file →
      (∀ detections, framePipeline ext (readFileSync file) = Except.ok detections →
        (frameLoop ext readFileSync frameFiles)[k]? = some detections) ∧
      (∀ e, framePipeline ext (readFileSync file) = Except.error e →
        (frameLoop ext readFileSync frameFiles)[k]? = some []) := by
  rw [frameLoop_eq_map]
  refine ⟨List.length_map _ _, ?_⟩
  intro k file hk
  rw [List.getElem?_map, hk]
  constructor
  · intro detections hok
    simp [detectObjectsOnImage, hok]
  · intro e herr
    simp [detectObjectsOnImage, herr]

theorem frameLoop_isolates_failures_witness :
    ([128, 0, 255] : List Nat)[1]? = some 0 ∧
    framePipeline grayExternals 0
      = Except.error (PipelineError.external "inference failed") ∧
    (frameLoop grayExternals id [128, 0, 255]).length = 3 ∧
    (frameLoop grayExternals id [128, 0, 255])[1]? = some [] ∧
    (frameLoop grayExternals id [128, 0, 255])[0]?
      = some (processOutput (anchorTensor apartCols) 640 640) ∧
    (frameLoop grayExternals id [128, 0, 255])[2]?
      = some (processOutput (anchorTensor apartCols) 640 640) :=
  ⟨rfl, by rw [framePipeline_gray]; rfl,
    (frameLoop_isolates_failures grayExternals id [128, 0, 255]).1,
    ((frameLoop_isolates_failures grayExternals id [128, 0, 255]).2 1 0 rfl).2 _
      (by rw [framePipeline_gray]; rfl),
    ((frameLoop_isolates_failures grayExternals id [128, 0, 255]).2 0 128 rfl).1 _
      (by rw [framePipeline_gray]; rfl),
    ((frameLoop_isolates_failures grayExternals id [128, 0, 255]).2 2 255 rfl).1 _
      (by rw [framePipeline_gray]; rfl)⟩

end ObjectDetector
